import Mathlib

/-!
Verification development for the reqline-frontend security layer and
test-suite execution engine.

The definitions below are a shallow embedding of the TypeScript sources:
  * `src/utils/security.ts` — sanitizer, validators, rate limiter, error
    classifier (sanitizeInput, createSafeErrorMessage, RateLimiter.isAllowed,
    checkRateLimit);
  * `src/components/MultipleEndpoints.tsx` — suite store and execution engine
    (loadSuitesFromStorage, loadCurrentSuiteFromStorage, addEndpointToSuite,
    updateEndpointInSuite, executeSingleEndpoint, executeAllEndpoints,
    stopAllExecution, extractBaseUrl).

Modelling conventions:
  * JavaScript numbers used as timestamps are modelled as `Int`
    (`Date.now() - windowMs` can be negative).
  * React `useState` values are `const` bindings frozen per render, and
    `setX` calls are modelled as writes to the threaded store state.  Most
    definitions below take their snapshot of the store at the entry of each
    function invocation, which coincides with the render-frozen semantics
    for facts about a single invocation; the `...Render` definitions
    additionally thread the one render-frozen snapshot through a whole
    batch run, as the source closures do, which is what facts about the
    final persisted state of a batch require.
  * A JavaScript runtime exception (`TypeError` on a null dereference) is
    modelled by returning the state reached so far together with the thrown
    message, since state writes before the throw are not rolled back.
  * The remote network is an oracle: a list of pending outcomes consumed one
    per call; every issued call is recorded in a trace.
-/

namespace Reqline

/-! ### Sanitizer: control-character removal (security.ts, sanitizeInput) -/

/-- Character class of the regex `[\x00-\x08\x0B\x0C\x0E-\x1F\x7F]` removed by
`sanitizeInput` before markup stripping. -/
def isRemovedCtrl (c : Char) : Bool :=
  c.toNat ≤ 0x08 || c.toNat = 0x0B || c.toNat = 0x0C ||
  (0x0E ≤ c.toNat && c.toNat ≤ 0x1F) || c.toNat = 0x7F

/-- `input.replace(/[\x00-\x08\x0B\x0C\x0E-\x1F\x7F]/g, "")`. -/
def removeCtrl (s : String) : String :=
  ⟨s.data.filter (fun c => !isRemovedCtrl c)⟩

/-! ### Sanitizer: markup stripping

Modelled from the spec: the call
`DOMPurify.sanitize(cleaned, { ALLOWED_TAGS: [], ALLOWED_ATTR: [], KEEP_CONTENT: true })`
is third-party library code not present in this repository.  Following the
spec (§4.1: "strips all markup tags and attributes from the remaining text
while retaining their text content"), we model it as an HTML-like
parse/serialize pass: a `<` followed by a tag-start character (letter, `/`,
`!` or `?`) opens a tag that is dropped up to the closing `>`; other text is
kept, with the named entities `&amp;` `&lt;` `&gt;` decoded; the surviving
text is then re-serialized with `&` `<` `>` escaped, as an HTML serializer
does. -/

/-- A `<` starts a markup tag when followed by one of these characters. -/
def isTagStartChar (c : Char) : Bool :=
  c.isAlpha || c = '/' || c = '!' || c = '?'

/-- Skip the remainder of a tag: drop characters up to and including the
first `>` (to the end of input if none). -/
def skipTag : List Char → List Char
  | [] => []
  | c :: rest => if c = '>' then rest else skipTag rest

theorem skipTag_length_le (l : List Char) : (skipTag l).length ≤ l.length := by
  induction l with
  | nil => simp [skipTag]
  | cons c rest ih =>
    simp only [skipTag]
    split
    · simp
    · exact Nat.le_trans ih (by simp)

theorem mem_skipTag {c : Char} {l : List Char} (h : c ∈ skipTag l) : c ∈ l := by
  induction l with
  | nil => simp [skipTag] at h
  | cons d rest ih =>
    simp only [skipTag] at h
    split at h
    · exact List.mem_cons_of_mem _ h
    · exact List.mem_cons_of_mem _ (ih h)

def entAmp : List Char := ['a', 'm', 'p', ';']
def entLt : List Char := ['l', 't', ';']
def entGt : List Char := ['g', 't', ';']

/-- One parsing pass: drop tags, decode the named entities, keep text.
Structured with explicit fuel so that the function is structurally recursive
and computes by `rfl`/`decide`; `decodeStrip` below instantiates the fuel
with the input length, which is always sufficient. -/
def dsGo : Nat → List Char → List Char
  | _, [] => []
  | 0, _ :: _ => []
  | Nat.succ n, c :: rest =>
    if c = '<' then
      match rest with
      | [] => ['<']
      | d :: _ =>
        if isTagStartChar d then dsGo n (skipTag rest)
        else '<' :: dsGo n rest
    else if c = '&' then
      if entAmp.isPrefixOf rest then '&' :: dsGo n (rest.drop 4)
      else if entLt.isPrefixOf rest then '<' :: dsGo n (rest.drop 3)
      else if entGt.isPrefixOf rest then '>' :: dsGo n (rest.drop 3)
      else '&' :: dsGo n rest
    else c :: dsGo n rest

/-- Parsing pass at its canonical fuel. -/
def decodeStrip (l : List Char) : List Char := dsGo l.length l

theorem length_drop_le (n : Nat) (l : List Char) : (List.drop n l).length ≤ l.length := by
  rw [List.length_drop]
  omega

/-- One-step unfolding of `dsGo` at positive fuel on a cons cell. -/
theorem dsGo_succ_cons (n : Nat) (c : Char) (rest : List Char) :
    dsGo (n + 1) (c :: rest) =
      if c = '<' then
        match rest with
        | [] => ['<']
        | d :: _ =>
          if isTagStartChar d then dsGo n (skipTag rest)
          else '<' :: dsGo n rest
      else if c = '&' then
        if entAmp.isPrefixOf rest then '&' :: dsGo n (rest.drop 4)
        else if entLt.isPrefixOf rest then '<' :: dsGo n (rest.drop 3)
        else if entGt.isPrefixOf rest then '>' :: dsGo n (rest.drop 3)
        else '&' :: dsGo n rest
      else c :: dsGo n rest := rfl

/-- Any two sufficient fuels give the same result. -/
theorem dsGo_fuel_irrel :
    ∀ (f1 f2 : Nat) (l : List Char), l.length ≤ f1 → l.length ≤ f2 →
      dsGo f1 l = dsGo f2 l := by
  intro f1
  induction f1 with
  | zero =>
    intro f2 l h1 _
    have : l = [] := List.eq_nil_of_length_eq_zero (Nat.le_zero.mp h1)
    subst this
    cases f2 <;> rfl
  | succ n ih =>
    intro f2 l h1 h2
    cases l with
    | nil => cases f2 <;> rfl
    | cons c rest =>
      cases f2 with
      | zero => exact absurd h2 (by simp)
      | succ m =>
        have hr : rest.length ≤ n := by simpa using h1
        have hr2 : rest.length ≤ m := by simpa using h2
        have e1 : dsGo n (skipTag rest) = dsGo m (skipTag rest) :=
          ih m _ (Nat.le_trans (skipTag_length_le _) hr)
            (Nat.le_trans (skipTag_length_le _) hr2)
        have e2 : dsGo n rest = dsGo m rest := ih m _ hr hr2
        have e3 : dsGo n (rest.drop 4) = dsGo m (rest.drop 4) :=
          ih m _ (Nat.le_trans (length_drop_le _ _) hr)
            (Nat.le_trans (length_drop_le _ _) hr2)
        have e4 : dsGo n (rest.drop 3) = dsGo m (rest.drop 3) :=
          ih m _ (Nat.le_trans (length_drop_le _ _) hr)
            (Nat.le_trans (length_drop_le _ _) hr2)
        rw [dsGo_succ_cons, dsGo_succ_cons, e1, e2, e3, e4]

theorem dsGo_eq_decodeStrip {f : Nat} {l : List Char} (h : l.length ≤ f) :
    dsGo f l = decodeStrip l :=
  dsGo_fuel_irrel f l.length l h (Nat.le_refl _)

theorem decodeStrip_nil : decodeStrip [] = [] := rfl

/-- Unfolding equation of `decodeStrip` on a cons cell. -/
theorem decodeStrip_cons (c : Char) (rest : List Char) :
    decodeStrip (c :: rest) =
      if c = '<' then
        match rest with
        | [] => ['<']
        | d :: _ =>
          if isTagStartChar d then decodeStrip (skipTag rest)
          else '<' :: decodeStrip rest
      else if c = '&' then
        if entAmp.isPrefixOf rest then '&' :: decodeStrip (rest.drop 4)
        else if entLt.isPrefixOf rest then '<' :: decodeStrip (rest.drop 3)
        else if entGt.isPrefixOf rest then '>' :: decodeStrip (rest.drop 3)
        else '&' :: decodeStrip rest
      else c :: decodeStrip rest := by
  have e1 : dsGo rest.length (skipTag rest) = decodeStrip (skipTag rest) :=
    dsGo_eq_decodeStrip (skipTag_length_le _)
  have e2 : dsGo rest.length rest = decodeStrip rest :=
    dsGo_eq_decodeStrip (Nat.le_refl _)
  have e3 : dsGo rest.length (rest.drop 4) = decodeStrip (rest.drop 4) :=
    dsGo_eq_decodeStrip (length_drop_le _ _)
  have e4 : dsGo rest.length (rest.drop 3) = decodeStrip (rest.drop 3) :=
    dsGo_eq_decodeStrip (length_drop_le _ _)
  show dsGo (rest.length + 1) (c :: rest) = _
  rw [dsGo_succ_cons, e1, e2, e3, e4]

theorem decodeStrip_entAmp (E : List Char) :
    decodeStrip ('&' :: 'a' :: 'm' :: 'p' :: ';' :: E) = '&' :: decodeStrip E := by
  rw [decodeStrip_cons]
  simp [entAmp, List.isPrefixOf]

theorem decodeStrip_entLt (E : List Char) :
    decodeStrip ('&' :: 'l' :: 't' :: ';' :: E) = '<' :: decodeStrip E := by
  rw [decodeStrip_cons]
  simp [entAmp, entLt, List.isPrefixOf]

theorem decodeStrip_entGt (E : List Char) :
    decodeStrip ('&' :: 'g' :: 't' :: ';' :: E) = '>' :: decodeStrip E := by
  rw [decodeStrip_cons]
  simp [entAmp, entLt, entGt, List.isPrefixOf]

theorem decodeStrip_plain (c : Char) (E : List Char) (h1 : c ≠ '<') (h2 : c ≠ '&') :
    decodeStrip (c :: E) = c :: decodeStrip E := by
  rw [decodeStrip_cons, if_neg h1, if_neg h2]

/-- Serializer escaping of one character, as an HTML serializer emits text. -/
def escapeChar (c : Char) : List Char :=
  if c = '&' then '&' :: entAmp
  else if c = '<' then '&' :: entLt
  else if c = '>' then '&' :: entGt
  else [c]

def escapeList : List Char → List Char
  | [] => []
  | c :: rest => escapeChar c ++ escapeList rest

/-- Markup-stripping pass of `sanitizeInput` (the DOMPurify call). -/
def purify (s : String) : String :=
  ⟨escapeList (decodeStrip s.data)⟩

/-- `sanitizeInput` on a string argument (security.ts): control-character
removal followed by the markup-stripping pass. -/
def sanitizeInput (input : String) : String :=
  purify (removeCtrl input)

/-- JavaScript-ish primitive values, to express the
`typeof input !== "string"` guard of `sanitizeInput`. -/
inductive JsPrim where
  | str (s : String)
  | num (n : Int)
  | boolean (b : Bool)
  | null
  deriving DecidableEq

/-- `sanitizeInput` including the non-string guard: non-string input yields
the empty string. -/
def sanitizeInputJs : JsPrim → String
  | .str s => sanitizeInput s
  | _ => ""

/-! ### Idempotence of the sanitizer -/

/-- The parsing pass un-does the serializer escaping. -/
theorem decodeStrip_escapeList : ∀ l : List Char, decodeStrip (escapeList l) = l := by
  intro l
  induction l with
  | nil => rfl
  | cons c rest ih =>
    show decodeStrip (escapeChar c ++ escapeList rest) = c :: rest
    by_cases h1 : c = '&'
    · subst h1
      show decodeStrip ('&' :: 'a' :: 'm' :: 'p' :: ';' :: escapeList rest) = _
      rw [decodeStrip_entAmp, ih]
    · by_cases h2 : c = '<'
      · subst h2
        show decodeStrip ('&' :: 'l' :: 't' :: ';' :: escapeList rest) = _
        rw [decodeStrip_entLt, ih]
      · by_cases h3 : c = '>'
        · subst h3
          show decodeStrip ('&' :: 'g' :: 't' :: ';' :: escapeList rest) = _
          rw [decodeStrip_entGt, ih]
        · have he : escapeChar c = [c] := by
            rw [escapeChar, if_neg h1, if_neg h2, if_neg h3]
          rw [he]
          show decodeStrip (c :: escapeList rest) = _
          rw [decodeStrip_plain c _ h2 h1, ih]

/-- Characters produced by the parsing pass come from the input or are one of
the three entity-decoded characters. -/
theorem mem_decodeStrip (l : List Char) :
    ∀ c ∈ decodeStrip l, c ∈ l ∨ c = '<' ∨ c = '&' ∨ c = '>' := by
  generalize hn : l.length = n
  induction n using Nat.strong_induction_on generalizing l with
  | _ n ih =>
    cases l with
    | nil =>
      intro c hc
      rw [decodeStrip_nil] at hc
      simp at hc
    | cons a rest =>
      intro c hc
      rw [decodeStrip_cons] at hc
      by_cases h1 : a = '<'
      · rw [if_pos h1] at hc
        cases rest with
        | nil =>
          simp at hc
          exact Or.inr (Or.inl hc)
        | cons d r2 =>
          dsimp only [] at hc
          by_cases hd : isTagStartChar d
          · rw [if_pos hd] at hc
            have hlen : (skipTag (d :: r2)).length < n := by
              subst hn
              have := skipTag_length_le (d :: r2)
              simp only [List.length_cons] at this ⊢
              omega
            rcases ih _ hlen (skipTag (d :: r2)) rfl c hc with h | h
            · exact Or.inl (List.mem_cons_of_mem _ (mem_skipTag h))
            · exact Or.inr h
          · rw [if_neg hd] at hc
            rcases List.mem_cons.mp hc with h | h
            · exact Or.inr (Or.inl h)
            · have hlen : (d :: r2).length < n := by
                subst hn
                simp
              rcases ih _ hlen _ rfl c h with h' | h'
              · exact Or.inl (List.mem_cons_of_mem _ h')
              · exact Or.inr h'
      · rw [if_neg h1] at hc
        by_cases h2 : a = '&'
        · rw [if_pos h2] at hc
          have hrest : rest.length < n := by
            subst hn
            simp
          have hdrop4 : (rest.drop 4).length < n :=
            Nat.lt_of_le_of_lt (length_drop_le _ _) hrest
          have hdrop3 : (rest.drop 3).length < n :=
            Nat.lt_of_le_of_lt (length_drop_le _ _) hrest
          by_cases hp1 : entAmp.isPrefixOf rest
          · rw [if_pos hp1] at hc
            rcases List.mem_cons.mp hc with h | h
            · exact Or.inr (Or.inr (Or.inl h))
            · rcases ih _ hdrop4 _ rfl c h with h' | h'
              · exact Or.inl (List.mem_cons_of_mem _ (List.mem_of_mem_drop h'))
              · exact Or.inr h'
          · rw [if_neg hp1] at hc
            by_cases hp2 : entLt.isPrefixOf rest
            · rw [if_pos hp2] at hc
              rcases List.mem_cons.mp hc with h | h
              · exact Or.inr (Or.inl h)
              · rcases ih _ hdrop3 _ rfl c h with h' | h'
                · exact Or.inl (List.mem_cons_of_mem _ (List.mem_of_mem_drop h'))
                · exact Or.inr h'
            · rw [if_neg hp2] at hc
              by_cases hp3 : entGt.isPrefixOf rest
              · rw [if_pos hp3] at hc
                rcases List.mem_cons.mp hc with h | h
                · exact Or.inr (Or.inr (Or.inr h))
                · rcases ih _ hdrop3 _ rfl c h with h' | h'
                  · exact Or.inl (List.mem_cons_of_mem _ (List.mem_of_mem_drop h'))
                  · exact Or.inr h'
              · rw [if_neg hp3] at hc
                rcases List.mem_cons.mp hc with h | h
                · exact Or.inr (Or.inr (Or.inl h))
                · rcases ih _ hrest _ rfl c h with h' | h'
                  · exact Or.inl (List.mem_cons_of_mem _ h')
                  · exact Or.inr h'
        · rw [if_neg h2] at hc
          rcases List.mem_cons.mp hc with h | h
          · exact Or.inl (h ▸ List.mem_cons_self _ _)
          · have hrest : rest.length < n := by
              subst hn
              simp
            rcases ih _ hrest _ rfl c h with h' | h'
            · exact Or.inl (List.mem_cons_of_mem _ h')
            · exact Or.inr h'

/-- Characters produced by the serializer come from the input or from the
entity spellings. -/
theorem mem_escapeList (l : List Char) :
    ∀ c ∈ escapeList l,
      c ∈ l ∨ c ∈ ['&', 'a', 'm', 'p', ';', 'l', 't', 'g'] := by
  induction l with
  | nil =>
    intro c hc
    simp [escapeList] at hc
  | cons a rest ih =>
    intro c hc
    rcases List.mem_append.mp hc with h | h
    · by_cases h1 : a = '&'
      · subst h1
        right
        simp only [escapeChar, if_pos rfl, entAmp] at h
        simp at h
        rcases h with h | h | h | h | h <;> simp [h]
      · by_cases h2 : a = '<'
        · subst h2
          right
          rw [escapeChar] at h
          rw [if_neg (by decide), if_pos rfl] at h
          simp [entLt] at h
          rcases h with h | h | h | h <;> simp [h]
        · by_cases h3 : a = '>'
          · subst h3
            right
            rw [escapeChar] at h
            rw [if_neg (by decide), if_neg (by decide), if_pos rfl] at h
            simp [entGt] at h
            rcases h with h | h | h | h <;> simp [h]
          · rw [escapeChar, if_neg h1, if_neg h2, if_neg h3] at h
            simp at h
            exact Or.inl (h ▸ List.mem_cons_self _ _)
    · rcases ih c h with h' | h'
      · exact Or.inl (List.mem_cons_of_mem _ h')
      · exact Or.inr h'

theorem purify_purify (s : String) : purify (purify s) = purify s := by
  show (⟨escapeList (decodeStrip (escapeList (decodeStrip s.data)))⟩ : String) = _
  rw [decodeStrip_escapeList]
  rfl

/-- The markup-stripping pass emits no removed control character when its
input has none. -/
theorem removeCtrl_purify (s : String) (h : ∀ c ∈ s.data, !isRemovedCtrl c) :
    removeCtrl (purify s) = purify s := by
  show (⟨(escapeList (decodeStrip s.data)).filter _⟩ : String) = _
  have : ∀ c ∈ escapeList (decodeStrip s.data), (!isRemovedCtrl c) = true := by
    intro c hc
    rcases mem_escapeList _ c hc with h' | h'
    · rcases mem_decodeStrip _ c h' with h'' | h'' | h'' | h''
      · exact h c h''
      · subst h''; decide
      · subst h''; decide
      · subst h''; decide
    · have : c ∈ ['&', 'a', 'm', 'p', ';', 'l', 't', 'g'] := h'
      fin_cases this <;> decide
  rw [List.filter_eq_self.mpr this]
  rfl

/-- C8: `sanitize(sanitize(x)) == sanitize(x)` for every input, with
non-string inputs yielding the empty string. -/
theorem c8_sanitize_idempotent :
    (∀ s : String, sanitizeInput (sanitizeInput s) = sanitizeInput s) ∧
    (∀ v : JsPrim, sanitizeInput (sanitizeInputJs v) = sanitizeInputJs v) := by
  have base : ∀ s : String, sanitizeInput (sanitizeInput s) = sanitizeInput s := by
    intro s
    show purify (removeCtrl (purify (removeCtrl s))) = purify (removeCtrl s)
    rw [removeCtrl_purify (removeCtrl s) (by
      intro c hc
      have := List.of_mem_filter (p := fun c => !isRemovedCtrl c) hc
      simpa using this)]
    exact purify_purify _
  refine ⟨base, ?_⟩
  intro v
  cases v with
  | str s => exact base s
  | num n => rfl
  | boolean b => rfl
  | null => rfl

/-! ### Error classifier (security.ts, createSafeErrorMessage) -/

/-- Occurrence test on character lists (needle first). -/
def listInfix (needle : List Char) : List Char → Bool
  | [] => needle.isEmpty
  | c :: rest => needle.isPrefixOf (c :: rest) || listInfix needle rest

/-- JavaScript `s.includes(sub)`. -/
def jsIncludes (s sub : String) : Bool := listInfix sub.data s.data

/-- Shape of `error.response.data` as inspected by the classifier: the three
optional string fields it prefers, in order. -/
structure RespData where
  message : Option String
  error : Option String
  detail : Option String
  deriving DecidableEq

/-- Shape of `error.response`: `data` is `none` when absent, falsy or not an
object; `status` is `none` when absent. -/
structure RespInfo where
  data : Option RespData
  status : Option Int
  deriving DecidableEq

/-- Duck-typed raw failure value handled by `createSafeErrorMessage`:
a bare string, an object (with optional `response` and optional string
`message`), or anything else. -/
inductive JsErrorVal where
  | str (s : String)
  | obj (response : Option RespInfo) (message : Option String)
  | other
  deriving DecidableEq

/-- `response.data.message || response.data.error || response.data.detail`
preference with JavaScript truthiness (the empty string is falsy). -/
def pickField : Option String → Option String
  | some m => if m = "" then none else some m
  | none => none

def respDataMessage (rd : RespData) : Option String :=
  match pickField rd.message with
  | some m => some m
  | none =>
    match pickField rd.error with
    | some m => some m
    | none => pickField rd.detail

/-- The `switch (response.status)` mapping. -/
def statusMessage (status : Int) : String :=
  if status = 400 then "Invalid request format. Please check your Reqline syntax."
  else if status = 401 then "Authentication required. Please check your credentials."
  else if status = 403 then "Access denied. You don't have permission to perform this action."
  else if status = 404 then "API endpoint not found. Please check the URL."
  else if status = 429 then "Too many requests. Please wait a moment before trying again."
  else if status = 500 then "Server error. Please try again later."
  else if status = 502 then "Bad gateway. The server is temporarily unavailable."
  else if status = 503 then "Service unavailable. Please try again later."
  else if status = 504 then "Gateway timeout. The request took too long to process."
  else "Request failed with status code " ++ toString status

/-- `if (response.status)` guard: present and truthy (non-zero). -/
def statusCase (resp : RespInfo) : Option String :=
  match resp.status with
  | some st => if st ≠ 0 then some (statusMessage st) else none
  | none => none

/-- JavaScript `message.toLowerCase()` (ASCII case mapping suffices for the
markers inspected here). -/
def jsToLower (s : String) : String := ⟨s.data.map Char.toLower⟩

def authErrorPhrase : String :=
  "An authentication error occurred. Please check your credentials."

/-- The sensitive-marker scan over the lowercased message text. -/
def containsSensitiveKeyword (m : String) : Bool :=
  jsIncludes m "password" || jsIncludes m "token" || jsIncludes m "key" ||
  jsIncludes m "secret" || jsIncludes m "api_key"

/-- The `error.message` inspection chain of `createSafeErrorMessage`. -/
def classifyMessageText (msg : String) : String :=
  let m := jsToLower msg
  if containsSensitiveKeyword m then authErrorPhrase
  else if jsIncludes m "timeout" then "Request timed out. Please try again."
  else if jsIncludes m "network" || jsIncludes m "connection" then
    "Network error. Please check your connection and try again."
  else if jsIncludes m "request failed with status code" then
    "Request failed. Please check your input and try again."
  else sanitizeInput msg

/-- What the `error.response` block yields, if it returns. -/
def responseOutcome : Option RespInfo → Option String
  | none => none
  | some resp =>
    match resp.data with
    | some rd =>
      match respDataMessage rd with
      | some m => some (sanitizeInput m)
      | none => statusCase resp
    | none => statusCase resp

/-- `createSafeErrorMessage` (security.ts). -/
def createSafeErrorMessage : JsErrorVal → String
  | .str s => sanitizeInput s
  | .obj response message =>
    match responseOutcome response with
    | some s => s
    | none =>
      match message with
      | some msg => classifyMessageText msg
      | none => "An unexpected error occurred. Please try again."
  | .other => "An unexpected error occurred. Please try again."

/-- C7: for every error object without a remote response whose message text
contains (case-insensitively) one of the markers password, token, key,
secret, api_key, `createSafeErrorMessage` returns the fixed generic
authentication-error phrase, and that phrase contains none of the five
markers (in particular not "api_key"). -/
theorem c7_sensitive_message_masked (msg : String)
    (h : containsSensitiveKeyword (jsToLower msg) = true) :
    createSafeErrorMessage (.obj none (some msg)) = authErrorPhrase ∧
    jsIncludes authErrorPhrase "password" = false ∧
    jsIncludes authErrorPhrase "token" = false ∧
    jsIncludes authErrorPhrase "key" = false ∧
    jsIncludes authErrorPhrase "secret" = false ∧
    jsIncludes authErrorPhrase "api_key" = false := by
  refine ⟨?_, by decide, by decide, by decide, by decide, by decide⟩
  show classifyMessageText msg = authErrorPhrase
  simp only [classifyMessageText, h, if_true]

/-- Witness for C7 at the spec's concrete example
`classify({message: "invalid api_key"})`. -/
theorem c7_witness :
    containsSensitiveKeyword (jsToLower "invalid api_key") = true ∧
    (createSafeErrorMessage (.obj none (some "invalid api_key")) = authErrorPhrase ∧
      jsIncludes authErrorPhrase "password" = false ∧
      jsIncludes authErrorPhrase "token" = false ∧
      jsIncludes authErrorPhrase "key" = false ∧
      jsIncludes authErrorPhrase "secret" = false ∧
      jsIncludes authErrorPhrase "api_key" = false) :=
  ⟨by decide, c7_sensitive_message_masked "invalid api_key" (by decide)⟩

/-! ### Rate limiter (security.ts, class RateLimiter and checkRateLimit) -/

/-- The `Map<string, number[]>` of the limiter, as an association list in
insertion order. -/
abbrev RLState := List (String × List Int)

def rlGet (st : RLState) (k : String) : Option (List Int) :=
  match st with
  | [] => none
  | (k2, v) :: rest => if k2 = k then some v else rlGet rest k

def rlSet (st : RLState) (k : String) (v : List Int) : RLState :=
  match st with
  | [] => [(k, v)]
  | (k2, v2) :: rest => if k2 = k then (k2, v) :: rest else (k2, v2) :: rlSet rest k v

/-- `RateLimiter.isAllowed(identifier, limit, windowMs)` at current time
`now`; returns the decision together with the updated map. -/
def isAllowed (st : RLState) (identifier : String) (limit : Nat) (windowMs : Int)
    (now : Int) : Bool × RLState :=
  let windowStart := now - windowMs
  match rlGet st identifier with
  | none => (true, rlSet st identifier [now])
  | some requests =>
    let recentRequests := requests.filter (fun time => windowStart < time)
    if limit ≤ recentRequests.length then (false, st)
    else (true, rlSet st identifier (recentRequests ++ [now]))

structure RateCheck where
  allowed : Bool
  retryAfter : Option Int
  deriving DecidableEq

/-- `checkRateLimit(identifier)` (security.ts): both tiers are consulted via
`isAllowed` before the rejection checks. -/
def checkRateLimit (st : RLState) (identifier : String) (now : Int) :
    RateCheck × RLState :=
  let minuteRes := isAllowed st (identifier ++ ":minute") 60 60000 now
  let hourRes := isAllowed minuteRes.2 (identifier ++ ":hour") 1000 3600000 now
  if minuteRes.1 = false then (⟨false, some 60⟩, hourRes.2)
  else if hourRes.1 = false then (⟨false, some 3600⟩, hourRes.2)
  else (⟨true, none⟩, hourRes.2)

/-! ### Data model (MultipleEndpoints.tsx interfaces) -/

inductive EpStatus where
  | pending
  | running
  | completed
  | failed
  deriving DecidableEq

/-- `EndpointTest` (MultipleEndpoints.tsx).  The `result` payload is an
`ApiResponse` in the source; since the engine only stores it after passing it
through `sanitizeResponseData` and never inspects it, it is modelled as the
string payload of the response (`sanitizeResponseData` on a string argument
is `sanitizeInput`). -/
structure EndpointTest where
  id : String
  title : String
  description : String
  reqline : String
  result : Option String
  error : Option String
  isLoading : Bool
  createdAt : Int
  executedAt : Option Int
  status : EpStatus
  deriving DecidableEq

/-- `TestSuite` (MultipleEndpoints.tsx). -/
structure TestSuite where
  id : String
  title : String
  description : String
  baseUrl : String
  endpoints : List EndpointTest
  createdAt : Int
  updatedAt : Int
  expiresAt : Int
  deriving DecidableEq

/-- A `Partial<EndpointTest>` as passed to `updateEndpointInSuite`: `some v`
sets the field to `v`, `none` leaves it unchanged. -/
structure EndpointPatch where
  result : Option (Option String) := none
  error : Option (Option String) := none
  isLoading : Option Bool := none
  executedAt : Option Int := none
  status : Option EpStatus := none
  deriving DecidableEq

/-- `{ ...endpoint, ...updates }`. -/
def applyPatch (ep : EndpointTest) (p : EndpointPatch) : EndpointTest :=
  { ep with
    result := p.result.getD ep.result
    error := p.error.getD ep.error
    isLoading := p.isLoading.getD ep.isLoading
    executedAt := match p.executedAt with
      | some t => some t
      | none => ep.executedAt
    status := p.status.getD ep.status }

/-- Outcome of one remote call: the `axios.post` either resolves with a
response payload or rejects with a raw failure value. -/
inductive NetOutcome where
  | ok (payload : String)
  | fail (err : JsErrorVal)
  deriving DecidableEq

/-- `sanitizeResponseData` on the (string-modelled) response payload. -/
def sanitizeResponseData (payload : String) : String := sanitizeInput payload

/-- The component/store state threaded through the engine:
React state (`currentSuite`, `testSuites`, `isRunningAll`), the persisted
localStorage entries, the rate-limiter map, a deterministic clock for
`Date.now()` (each read returns the time and advances it), a counter backing
`generateId()`, the pending network outcomes, and the trace of issued
network calls. -/
structure EngineState where
  currentSuite : Option TestSuite
  testSuites : List TestSuite
  storedCurrent : Option TestSuite
  storedSuites : List TestSuite
  isRunningAll : Bool
  limiter : RLState
  time : Int
  idCounter : Nat
  net : List NetOutcome
  netTrace : List String
  deriving DecidableEq

/-- One `Date.now()` read. -/
def tick (s : EngineState) : Int × EngineState :=
  (s.time, { s with time := s.time + 1 })

/-- `generateId()` (timestamp+random in the source), modelled by a counter. -/
def generateId (s : EngineState) : String × EngineState :=
  ("id" ++ toString s.idCounter, { s with idCounter := s.idCounter + 1 })

/-- The common write pattern: `setCurrentSuite`, `saveCurrentSuiteToStorage`,
then map the suite into `testSuites` and `saveSuitesToStorage`. -/
def persistSuite (s : EngineState) (suite : TestSuite) : EngineState :=
  { s with
    currentSuite := some suite
    storedCurrent := some suite
    testSuites := s.testSuites.map (fun su => if su.id == suite.id then suite else su)
    storedSuites := s.testSuites.map (fun su => if su.id == suite.id then suite else su) }

/-- `updateEndpointInSuite(endpointId, updates)` (MultipleEndpoints.tsx). -/
def updateEndpointInSuite (s : EngineState) (endpointId : String)
    (updates : EndpointPatch) : EngineState :=
  match s.currentSuite with
  | none => s
  | some cs =>
    let ts := tick s
    let updatedSuite : TestSuite :=
      { cs with
        endpoints := cs.endpoints.map (fun ep =>
          if ep.id == endpointId then applyPatch ep updates else ep)
        updatedAt := ts.1 }
    persistSuite ts.2 updatedSuite

/-- One `axios.post(config.apiUrl, { reqline }, ...)`: consume the next
pending outcome and record the call in the trace. -/
def netCall (s : EngineState) (reqline : String) : NetOutcome × EngineState :=
  match s.net with
  | [] => (.fail .other, { s with netTrace := s.netTrace ++ [reqline] })
  | o :: rest => (o, { s with net := rest, netTrace := s.netTrace ++ [reqline] })

/-- `executeSingleEndpoint(endpointId)` (MultipleEndpoints.tsx).  Note: the
source contains no `checkRateLimit` call on this path. -/
def executeSingleEndpoint (s : EngineState) (endpointId : String) : EngineState :=
  match s.currentSuite with
  | none => s
  | some cs =>
    match cs.endpoints.find? (fun ep => ep.id == endpointId) with
    | none => s
    | some ep =>
      let s1 := updateEndpointInSuite s endpointId
        { error := some none, isLoading := some true, status := some .running }
      let call := netCall s1 ep.reqline
      match call.1 with
      | .ok payload =>
        let ts := tick call.2
        updateEndpointInSuite ts.2 endpointId
          { result := some (some (sanitizeResponseData payload))
            isLoading := some false
            executedAt := some ts.1
            status := some .completed }
      | .fail err =>
        let ts := tick call.2
        updateEndpointInSuite ts.2 endpointId
          { error := some (some (createSafeErrorMessage err))
            isLoading := some false
            executedAt := some ts.1
            status := some .failed }

/-- `stopAllExecution()` (MultipleEndpoints.tsx). -/
def stopAllExecution (s : EngineState) : EngineState :=
  match s.currentSuite with
  | none => s
  | some cs =>
    let ts := tick s
    let updatedSuite : TestSuite :=
      { cs with
        endpoints := cs.endpoints.map (fun ep =>
          { ep with
            isLoading := false
            status := if ep.status = .running then .pending else ep.status })
        updatedAt := ts.1 }
    let s2 := persistSuite ts.2 updatedSuite
    { s2 with isRunningAll := false }

/-- The `for (const endpoint of resetSuite.endpoints)` loop of
`executeAllEndpoints`.  `stopReq k` models an external stop click arriving
between iterations (before iteration `k`); the loop body itself performs no
check of any flag, exactly as in the source.  The 500 ms inter-call delay
advances the clock. -/
def execLoop (stopReq : Nat → Bool) : List String → Nat → EngineState → EngineState
  | [], _, s => s
  | epId :: rest, k, s =>
    let s1 := if stopReq k then stopAllExecution s else s
    let s2 := executeSingleEndpoint s1 epId
    let s3 := { s2 with time := s2.time + 500 }
    execLoop stopReq rest (k + 1) s3

/-- `executeAllEndpoints()` (MultipleEndpoints.tsx): reset every endpoint to
pending (clearing result/error), persist, then execute strictly in
sequence. -/
def executeAllEndpoints (stopReq : Nat → Bool) (s : EngineState) : EngineState :=
  match s.currentSuite with
  | none => s
  | some cs =>
    if cs.endpoints.length = 0 then s
    else
      let s1 := { s with isRunningAll := true }
      let ts := tick s1
      let resetSuite : TestSuite :=
        { cs with
          endpoints := cs.endpoints.map (fun ep =>
            { ep with
              result := none
              error := none
              isLoading := false
              status := .pending })
          updatedAt := ts.1 }
      let s3 := persistSuite ts.2 resetSuite
      let s4 := execLoop stopReq (resetSuite.endpoints.map (fun ep => ep.id)) 0 s3
      { s4 with isRunningAll := false }

/-! ### Render-frozen batch semantics (MultipleEndpoints.tsx)

`updateEndpointInSuite` and `executeSingleEndpoint` are closures over the
render-scoped constants `currentSuite` and `testSuites`, and `setCurrentSuite`
is always passed a direct value, never a functional update.  Hence every
invocation made during one `executeAllEndpoints` run computes its write from
the same suite snapshot — the one captured by the render in which the run
started — not from the store as updated by earlier writes of the same run.
The definitions below repeat the three functions with that frozen snapshot
(`cs0`, `ts0`) made explicit; the clock, the network oracle and the store
being written remain threaded state. -/

/-- `updateEndpointInSuite(endpointId, updates)` as invoked from a fixed
render: the suite and history consts `cs0`/`ts0` are read from the closure,
only the writes go to the store. -/
def updateEndpointInSuiteRender (cs0 : Option TestSuite) (ts0 : List TestSuite)
    (s : EngineState) (endpointId : String) (updates : EndpointPatch) :
    EngineState :=
  match cs0 with
  | none => s
  | some cs =>
    let ts := tick s
    let updatedSuite : TestSuite :=
      { cs with
        endpoints := cs.endpoints.map (fun ep =>
          if ep.id == endpointId then applyPatch ep updates else ep)
        updatedAt := ts.1 }
    { ts.2 with
      currentSuite := some updatedSuite
      storedCurrent := some updatedSuite
      testSuites := ts0.map (fun su =>
        if su.id == updatedSuite.id then updatedSuite else su)
      storedSuites := ts0.map (fun su =>
        if su.id == updatedSuite.id then updatedSuite else su) }

/-- `executeSingleEndpoint(endpointId)` as invoked from a fixed render: the
endpoint lookup and both `updateEndpointInSuite` calls use the same frozen
`cs0`/`ts0`. -/
def executeSingleEndpointRender (cs0 : Option TestSuite) (ts0 : List TestSuite)
    (s : EngineState) (endpointId : String) : EngineState :=
  match cs0 with
  | none => s
  | some cs =>
    match cs.endpoints.find? (fun ep => ep.id == endpointId) with
    | none => s
    | some ep =>
      let s1 := updateEndpointInSuiteRender cs0 ts0 s endpointId
        { error := some none, isLoading := some true, status := some .running }
      let call := netCall s1 ep.reqline
      match call.1 with
      | .ok payload =>
        let ts := tick call.2
        updateEndpointInSuiteRender cs0 ts0 ts.2 endpointId
          { result := some (some (sanitizeResponseData payload))
            isLoading := some false
            executedAt := some ts.1
            status := some .completed }
      | .fail err =>
        let ts := tick call.2
        updateEndpointInSuiteRender cs0 ts0 ts.2 endpointId
          { error := some (some (createSafeErrorMessage err))
            isLoading := some false
            executedAt := some ts.1
            status := some .failed }

/-- The `for (const endpoint of resetSuite.endpoints)` loop, every iteration
invoking the closure of the render in which the run started. -/
def execRenderLoop (cs0 : Option TestSuite) (ts0 : List TestSuite) :
    List String → EngineState → EngineState
  | [], s => s
  | epId :: rest, s =>
    let s2 := executeSingleEndpointRender cs0 ts0 s epId
    let s3 := { s2 with time := s2.time + 500 }
    execRenderLoop cs0 ts0 rest s3

/-- `executeAllEndpoints()` run to completion from a settled render, so the
frozen snapshot equals the store at entry.  The reset suite is built from the
frozen `currentSuite` and persisted; the loop then iterates the reset
endpoints, but every `executeSingleEndpoint` call inside still reads the
render-frozen pre-batch suite. -/
def executeAllEndpointsRender (s : EngineState) : EngineState :=
  let cs0 := s.currentSuite
  let ts0 := s.testSuites
  match cs0 with
  | none => s
  | some cs =>
    if cs.endpoints.length = 0 then s
    else
      let s1 := { s with isRunningAll := true }
      let ts := tick s1
      let resetSuite : TestSuite :=
        { cs with
          endpoints := cs.endpoints.map (fun ep =>
            { ep with
              result := none
              error := none
              isLoading := false
              status := .pending })
          updatedAt := ts.1 }
      let s3 := { ts.2 with
        currentSuite := some resetSuite
        storedCurrent := some resetSuite
        testSuites := ts0.map (fun su =>
          if su.id == resetSuite.id then resetSuite else su)
        storedSuites := ts0.map (fun su =>
          if su.id == resetSuite.id then resetSuite else su) }
      let s4 := execRenderLoop (some cs) ts0
        (resetSuite.endpoints.map (fun ep => ep.id)) s3
      { s4 with isRunningAll := false }

/-! ### extractBaseUrl and addEndpointToSuite (MultipleEndpoints.tsx) -/

/-- JavaScript regex `\s` (the whitespace characters relevant here). -/
def isJsSpace (c : Char) : Bool :=
  c = ' ' || c = '\t' || c = '\n' || c = '\r' || c = '\x0b' || c = '\x0c'

/-- A character allowed in the `[^\s|]+` URL token. -/
def urlTokenChar (c : Char) : Bool := !isJsSpace c && c != '|'

/-- Case-insensitive character comparison against a lowercase target, for the
`/i` regex flag. -/
def charLowEq (c target : Char) : Bool := c.toLower = target

/-- Expect the literal `://`. -/
def expectColonSlashSlash : List Char → Option (List Char)
  | ':' :: '/' :: '/' :: r => some r
  | _ => none

/-- Match `https?:\/\/` case-insensitively; on success return whether the
scheme was https together with the characters after `//`. -/
def matchScheme : List Char → Option (Bool × List Char)
  | h :: t1 :: t2 :: p :: rest =>
    if charLowEq h 'h' && charLowEq t1 't' && charLowEq t2 't' && charLowEq p 'p' then
      match rest with
      | [] => none
      | c1 :: r1 =>
        if charLowEq c1 's' then
          match expectColonSlashSlash r1 with
          | some r2 => some (true, r2)
          | none => none
        else
          match expectColonSlashSlash rest with
          | some r2 => some (false, r2)
          | none => none
    else none
  | _ => none

/-- `new URL(fullUrl)` and `` `${url.protocol}//${url.host}` `` on the
captured token: the host runs to the first `/`, `?` or `#` and is
lowercased together with the scheme (as the URL parser normalises them);
an empty host makes the URL constructor throw, yielding `none`.
Userinfo/port subtleties of full URL parsing are not modelled. -/
def extractOriginFrom (isHttps : Bool) (afterSlashes : List Char) : Option String :=
  let token := afterSlashes.takeWhile urlTokenChar
  if token.isEmpty then none
  else
    let host := token.takeWhile (fun c => c != '/' && c != '?' && c != '#')
    if host.isEmpty then none
    else some ((if isHttps then "https://" else "http://") ++ ⟨host.map Char.toLower⟩)

/-- Attempt the regex `URL\s+(https?:\/\/[^\s|]+)/i` anchored at the current
position: `none` when the pattern does not match here; `some r` when it
matches, where `r` is the result of URL-parsing the captured text. -/
def tryMatchUrlAt : List Char → Option (Option String)
  | u :: r :: ll :: rest =>
    if charLowEq u 'u' && charLowEq r 'r' && charLowEq ll 'l' then
      match rest with
      | [] => none
      | c :: r1 =>
        if isJsSpace c then
          match matchScheme (r1.dropWhile isJsSpace) with
          | some (isHttps, afterSlashes) =>
            if (afterSlashes.takeWhile urlTokenChar).isEmpty then none
            else some (extractOriginFrom isHttps afterSlashes)
          | none => none
        else none
    else none
  | _ => none

/-- Leftmost regex match. -/
def scanForUrl : List Char → Option String
  | [] => none
  | c :: rest =>
    match tryMatchUrlAt (c :: rest) with
    | some res => res
    | none => scanForUrl rest

/-- `extractBaseUrl(reqline)` (MultipleEndpoints.tsx). -/
def extractBaseUrl (reqline : String) : Option String :=
  scanForUrl reqline.data

/-- `validateEndpointForSuite(reqline)`: `none` means valid, `some msg` the
rejection message. -/
def validateEndpointForSuite (cs0 : Option TestSuite) (reqline : String) :
    Option String :=
  match cs0 with
  | none => none
  | some cs =>
    match extractBaseUrl reqline with
    | none => some "Could not extract base URL from reqline syntax"
    | some newBaseUrl =>
      if newBaseUrl != cs.baseUrl then
        some ("Different base URLs cannot be mixed in the same test suite. Current suite uses: "
          ++ cs.baseUrl ++ ", but this endpoint uses: " ++ newBaseUrl)
      else none

/-- `createNewSuite(baseUrl)`; `createdAt`, `updatedAt` and `expiresAt` come
from three successive `Date.now()` reads, `expiresAt` four hours later. -/
def createNewSuite (s : EngineState) (baseUrl : String) : TestSuite × EngineState :=
  let ids := generateId s
  let t1 := tick ids.2
  let t2 := tick t1.2
  let t3 := tick t2.2
  ({ id := ids.1
     title := "API Test Suite"
     description := "Test suite for multiple API endpoints"
     baseUrl := baseUrl
     endpoints := []
     createdAt := t1.1
     updatedAt := t2.1
     expiresAt := t3.1 + 4 * 60 * 60 * 1000 }, t3.2)

structure EndpointDraft where
  title : String
  description : String
  reqline : String
  deriving DecidableEq

/-- Result of `addEndpointToSuite`: the state reached (state writes before a
thrown exception are kept) and the exception, if one was thrown. -/
structure AddResult where
  state : EngineState
  thrown : Option String
  deriving DecidableEq

/-- `addEndpointToSuite(endpoint)` (MultipleEndpoints.tsx).  `currentSuite`
is a per-render `const`: the body reads the snapshot taken at entry (`cs0`),
while `setCurrentSuite` writes to the store.  In the no-current-suite branch
the source creates and persists a fresh suite, then evaluates
`[...currentSuite!.endpoints, newEndpointData]` on the still-null snapshot,
throwing a TypeError. -/
def addEndpointToSuite (s : EngineState) (draft : EndpointDraft) : AddResult :=
  let cs0 := s.currentSuite
  match validateEndpointForSuite cs0 draft.reqline with
  | some _errMsg => ⟨s, none⟩
  | none =>
    match cs0 with
    | none =>
      match extractBaseUrl draft.reqline with
      | none => ⟨s, none⟩
      | some baseUrl =>
        let ns := createNewSuite s baseUrl
        let s2 := { ns.2 with
          currentSuite := some ns.1
          storedCurrent := some ns.1
          testSuites := ns.2.testSuites ++ [ns.1]
          storedSuites := ns.2.testSuites ++ [ns.1] }
        let ids := generateId s2
        let ct := tick ids.2
        ⟨ct.2, some "TypeError: Cannot read properties of null (reading 'endpoints')"⟩
    | some cs =>
      let ids := generateId s
      let ct := tick ids.2
      let newEndpointData : EndpointTest :=
        { id := ids.1
          title := draft.title
          description := draft.description
          reqline := draft.reqline
          result := none
          error := none
          isLoading := false
          createdAt := ct.1
          executedAt := none
          status := .pending }
      let ut := tick ct.2
      let updatedSuite : TestSuite :=
        { cs with
          endpoints := cs.endpoints ++ [newEndpointData]
          updatedAt := ut.1 }
      ⟨persistSuite ut.2 updatedSuite, none⟩

/-! ### Persistence loading (MultipleEndpoints.tsx, loadSuitesFromStorage
and loadCurrentSuiteFromStorage) -/

/-- The `reqline-test-suites` localStorage entry as seen by `JSON.parse`:
absent, unparseable, or a stored suite list. -/
inductive StoredSuites where
  | absent
  | malformed
  | stored (suites : List TestSuite)
  deriving DecidableEq

/-- The `reqline-test-current-suite` entry. -/
inductive StoredCurrent where
  | absent
  | malformed
  | stored (suite : TestSuite)
  deriving DecidableEq

/-- `loadSuitesFromStorage()` at wall time `now`: returns the suite list
handed to the caller together with the storage contents afterwards.  The
`catch` around `JSON.parse` yields `[]` for malformed payloads; expired
suites are filtered out and the filtered list is written back when it
differs in length. -/
def loadSuitesFromStorage (st : StoredSuites) (now : Int) :
    List TestSuite × StoredSuites :=
  match st with
  | .absent => ([], .absent)
  | .malformed => ([], .malformed)
  | .stored suites =>
    let validSuites := suites.filter (fun suite => now ≤ suite.expiresAt)
    if validSuites.length ≠ suites.length then (validSuites, .stored validSuites)
    else (validSuites, st)

/-- `loadCurrentSuiteFromStorage()` at wall time `now`. -/
def loadCurrentSuiteFromStorage (st : StoredCurrent) (now : Int) :
    Option TestSuite × StoredCurrent :=
  match st with
  | .absent => (none, .absent)
  | .malformed => (none, .malformed)
  | .stored suite =>
    if suite.expiresAt < now then (none, .absent)
    else (some suite, st)

/-! ### Engine bookkeeping lemmas -/

/-- The endpoint ids of the current suite, the invariant the batch loop
relies on. -/
def suiteIds (s : EngineState) : Option (List String) :=
  s.currentSuite.map (fun cs => cs.endpoints.map (fun e => e.id))

theorem applyPatch_id (ep : EndpointTest) (p : EndpointPatch) :
    (applyPatch ep p).id = ep.id := rfl

theorem updateEndpointInSuite_fields (s : EngineState) (eid : String) (p : EndpointPatch) :
    (updateEndpointInSuite s eid p).netTrace = s.netTrace ∧
    (updateEndpointInSuite s eid p).net = s.net ∧
    (updateEndpointInSuite s eid p).limiter = s.limiter ∧
    (updateEndpointInSuite s eid p).isRunningAll = s.isRunningAll := by
  cases h : s.currentSuite <;>
    simp [updateEndpointInSuite, h, tick, persistSuite]

theorem suiteIds_update (s : EngineState) (eid : String) (p : EndpointPatch) :
    suiteIds (updateEndpointInSuite s eid p) = suiteIds s := by
  cases h : s.currentSuite with
  | none => simp [updateEndpointInSuite, h]
  | some cs =>
    simp only [updateEndpointInSuite, h, tick, persistSuite, suiteIds,
      Option.map_some]
    refine congrArg some ?_
    show (cs.endpoints.map (fun ep =>
        if ep.id == eid then applyPatch ep p else ep)).map (fun e => e.id) =
      cs.endpoints.map (fun e => e.id)
    rw [List.map_map]
    refine List.map_congr_left ?_
    intro e _
    by_cases he : (e.id == eid) = true <;> simp [he, Function.comp, applyPatch]

theorem netCall_fields (s : EngineState) (r : String) :
    (netCall s r).2.netTrace = s.netTrace ++ [r] ∧
    (netCall s r).2.currentSuite = s.currentSuite ∧
    (netCall s r).2.limiter = s.limiter ∧
    (netCall s r).2.isRunningAll = s.isRunningAll := by
  cases h : s.net <;> simp [netCall, h]

theorem stopAllExecution_fields (s : EngineState) :
    (stopAllExecution s).netTrace = s.netTrace ∧
    (stopAllExecution s).net = s.net ∧
    (stopAllExecution s).limiter = s.limiter ∧
    suiteIds (stopAllExecution s) = suiteIds s := by
  cases h : s.currentSuite with
  | none => simp [stopAllExecution, h]
  | some cs =>
    refine ⟨by simp [stopAllExecution, h, tick, persistSuite],
      by simp [stopAllExecution, h, tick, persistSuite],
      by simp [stopAllExecution, h, tick, persistSuite], ?_⟩
    simp only [stopAllExecution, h, tick, persistSuite, suiteIds,
      Option.map_some]
    refine congrArg some ?_
    show (cs.endpoints.map (fun ep =>
        { ep with
          isLoading := false
          status := if ep.status = EpStatus.running then EpStatus.pending
            else ep.status })).map (fun e => e.id) =
      cs.endpoints.map (fun e => e.id)
    rw [List.map_map]
    exact List.map_congr_left (fun e _ => rfl)

theorem find?_of_mem_ids (l : List EndpointTest) (eid : String)
    (h : eid ∈ l.map (fun e => e.id)) :
    ∃ ep, l.find? (fun e => e.id == eid) = some ep := by
  induction l with
  | nil => simp at h
  | cons e rest ih =>
    by_cases he : (e.id == eid) = true
    · exact ⟨e, by simp [List.find?_cons, he]⟩
    · have : eid ∈ rest.map (fun e => e.id) := by
        rcases List.mem_cons.mp h with h' | h'
        · exact absurd (beq_iff_eq.mpr h'.symm) he
        · exact h'
      obtain ⟨ep, hep⟩ := ih this
      exact ⟨ep, by simp [List.find?_cons, he, hep]⟩

theorem tick_currentSuite (s : EngineState) : (tick s).2.currentSuite = s.currentSuite := rfl

theorem tick_netTrace (s : EngineState) : (tick s).2.netTrace = s.netTrace := rfl

theorem tick_limiter (s : EngineState) : (tick s).2.limiter = s.limiter := rfl

theorem suiteIds_tick (s : EngineState) : suiteIds (tick s).2 = suiteIds s := rfl

theorem suiteIds_netCall (s : EngineState) (r : String) :
    suiteIds (netCall s r).2 = suiteIds s := by
  cases h : s.net <;> simp [netCall, h, suiteIds]

/-- `executeSingleEndpoint` on a state whose current suite contains the
endpoint: exactly one network call is issued (whatever its outcome), the
rate-limiter state is untouched, and the suite keeps the same endpoint
ids. -/
theorem executeSingleEndpoint_step (s : EngineState) (eid : String) (ids : List String)
    (hids : suiteIds s = some ids) (hmem : eid ∈ ids) :
    (executeSingleEndpoint s eid).netTrace.length = s.netTrace.length + 1 ∧
    suiteIds (executeSingleEndpoint s eid) = some ids ∧
    (executeSingleEndpoint s eid).limiter = s.limiter := by
  cases hc : s.currentSuite with
  | none => simp [suiteIds, hc] at hids
  | some cs =>
    have hidsEq : cs.endpoints.map (fun e => e.id) = ids := by
      simp [suiteIds, hc] at hids
      exact hids
    obtain ⟨ep, hfind⟩ := find?_of_mem_ids cs.endpoints eid (hidsEq ▸ hmem)
    simp only [executeSingleEndpoint, hc, hfind]
    split <;>
      refine ⟨?_, ?_, ?_⟩ <;>
        first
        | (rw [(updateEndpointInSuite_fields _ _ _).1, tick_netTrace,
            (netCall_fields _ _).1, (updateEndpointInSuite_fields _ _ _).1]
           simp)
        | (rw [suiteIds_update, suiteIds_tick, suiteIds_netCall, suiteIds_update, hids])
        | (rw [(updateEndpointInSuite_fields _ _ _).2.2.1, tick_limiter,
            (netCall_fields _ _).2.2.1, (updateEndpointInSuite_fields _ _ _).2.2.1])

theorem find?_map_if (l : List EndpointTest) (eid : String) (ep : EndpointTest)
    (f : EndpointTest → EndpointTest) (hf : ∀ e, (f e).id = e.id)
    (h : l.find? (fun e => e.id == eid) = some ep) :
    (l.map (fun e => if e.id == eid then f e else e)).find?
      (fun e => e.id == eid) = some (f ep) := by
  induction l with
  | nil => simp [List.find?] at h
  | cons e rest ih =>
    rw [List.find?_cons] at h
    rw [List.map_cons, List.find?_cons]
    cases he : (e.id == eid) with
    | true =>
      rw [he] at h
      have h2 : some e = some ep := h
      have hep : e = ep := by injection h2
      subst hep
      show (match (f e).id == eid with
        | true => some (f e)
        | false => (rest.map (fun x => if x.id == eid then f x else x)).find?
            (fun x => x.id == eid)) = some (f e)
      rw [hf e, he]
    | false =>
      rw [he] at h
      have h' : rest.find? (fun x => x.id == eid) = some ep := h
      show (match e.id == eid with
        | true => some e
        | false => (rest.map (fun x => if x.id == eid then f x else x)).find?
            (fun x => x.id == eid)) = some (f ep)
      rw [he]
      exact ih h'

theorem updateEndpointInSuite_currentSuite (s : EngineState) (cs : TestSuite)
    (eid : String) (p : EndpointPatch) (h : s.currentSuite = some cs) :
    (updateEndpointInSuite s eid p).currentSuite =
      some { cs with
        endpoints := cs.endpoints.map (fun e =>
          if e.id == eid then applyPatch e p else e)
        updatedAt := s.time } := by
  simp [updateEndpointInSuite, h, tick, persistSuite]

theorem updateEndpointInSuite_time (s : EngineState) (cs : TestSuite)
    (eid : String) (p : EndpointPatch) (h : s.currentSuite = some cs) :
    (updateEndpointInSuite s eid p).time = s.time + 1 := by
  simp [updateEndpointInSuite, h, tick, persistSuite]

/-- The batch loop issues one network call per processed endpoint id, whether
or not a stop request arrives between iterations: the source loop contains no
check of the `isRunningAll` flag. -/
theorem execLoop_netTrace (stopReq : Nat → Bool) (ids : List String) :
    ∀ (epIds : List String) (k : Nat) (s : EngineState),
      suiteIds s = some ids → (∀ eid ∈ epIds, eid ∈ ids) →
      (execLoop stopReq epIds k s).netTrace.length =
        s.netTrace.length + epIds.length := by
  intro epIds
  induction epIds with
  | nil =>
    intro k s _ _
    simp [execLoop]
  | cons eid rest ih =>
    intro k s hids hmem
    simp only [execLoop]
    have h1 : suiteIds (if stopReq k then stopAllExecution s else s) = some ids := by
      split
      · rw [(stopAllExecution_fields s).2.2.2, hids]
      · exact hids
    have h2 : (if stopReq k then stopAllExecution s else s).netTrace = s.netTrace := by
      split
      · exact (stopAllExecution_fields s).1
      · rfl
    obtain ⟨e1, e2, _⟩ := executeSingleEndpoint_step
      (if stopReq k then stopAllExecution s else s) eid ids h1
      (hmem eid (List.mem_cons_self _ _))
    set s1 := if stopReq k then stopAllExecution s else s with hs1
    set s2 := executeSingleEndpoint s1 eid with hs2
    have h3 := ih (k + 1) ({ s2 with time := s2.time + 500 })
      (show suiteIds _ = some ids from e2)
      (fun x hx => hmem x (List.mem_cons_of_mem _ hx))
    rw [h3]
    have e1f : ({ s2 with time := s2.time + 500 } : EngineState).netTrace.length =
        s.netTrace.length + 1 := by
      show s2.netTrace.length = s.netTrace.length + 1
      rw [e1, h2]
    rw [e1f]
    simp only [List.length_cons]
    omega

/-- C4 (amended): `stopAllExecution` during a batch does not prevent further
network calls — `executeAllEndpoints` on a nonempty suite issues exactly one
network call per endpoint under every stop-request schedule, because the
batch loop never checks the `isRunningAll` flag between iterations. -/
theorem executeAll_calls_every_endpoint (stopReq : Nat → Bool) (s : EngineState)
    (cs : TestSuite) (hcs : s.currentSuite = some cs) (hne : cs.endpoints ≠ []) :
    (executeAllEndpoints stopReq s).netTrace.length =
      s.netTrace.length + cs.endpoints.length := by
  have hlen : ¬cs.endpoints.length = 0 := fun h => hne (List.length_eq_zero.mp h)
  simp only [executeAllEndpoints, hcs]
  rw [if_neg hlen]
  rw [show s.netTrace.length + cs.endpoints.length =
      s.netTrace.length +
        ((cs.endpoints.map (fun ep =>
          ({ ep with
            result := none
            error := none
            isLoading := false
            status := EpStatus.pending } : EndpointTest))).map
              (fun e => e.id)).length from by simp]
  exact execLoop_netTrace stopReq _ _ 0 _ rfl (fun x hx => hx)

/-- Closed form of `updateEndpointInSuite` on a state with a current suite. -/
theorem updateEndpointInSuite_eq (s : EngineState) (cs : TestSuite) (eid : String)
    (p : EndpointPatch) (h : s.currentSuite = some cs) :
    updateEndpointInSuite s eid p =
      { s with
        time := s.time + 1
        currentSuite := some
          { cs with
            endpoints := cs.endpoints.map (fun e =>
              if e.id == eid then applyPatch e p else e)
            updatedAt := s.time }
        storedCurrent := some
          { cs with
            endpoints := cs.endpoints.map (fun e =>
              if e.id == eid then applyPatch e p else e)
            updatedAt := s.time }
        testSuites := s.testSuites.map (fun su =>
          if su.id == cs.id then
            { cs with
              endpoints := cs.endpoints.map (fun e =>
                if e.id == eid then applyPatch e p else e)
              updatedAt := s.time }
          else su)
        storedSuites := s.testSuites.map (fun su =>
          if su.id == cs.id then
            { cs with
              endpoints := cs.endpoints.map (fun e =>
                if e.id == eid then applyPatch e p else e)
              updatedAt := s.time }
          else su) } := by
  simp [updateEndpointInSuite, h, tick, persistSuite]

/-- Closed form of `executeSingleEndpoint` when the call fails: the running
transition clears `error` (but not `result`), then the failure handler stores
the classified message, so the final endpoint keeps its prior `result`. -/
theorem executeSingleEndpoint_fail_eq (s : EngineState) (cs : TestSuite)
    (ep : EndpointTest) (eid : String) (err : JsErrorVal) (ns : List NetOutcome)
    (hcs : s.currentSuite = some cs)
    (hfind : cs.endpoints.find? (fun e => e.id == eid) = some ep)
    (hnet : s.net = .fail err :: ns) :
    (executeSingleEndpoint s eid).currentSuite =
      some { cs with
        endpoints := cs.endpoints.map (fun e =>
          if e.id == eid then
            { e with
              error := some (createSafeErrorMessage err)
              isLoading := false
              executedAt := some (s.time + 1)
              status := .failed }
          else e)
        updatedAt := s.time + 2 } ∧
    (executeSingleEndpoint s eid).net = ns ∧
    (executeSingleEndpoint s eid).time = s.time + 3 ∧
    (executeSingleEndpoint s eid).netTrace = s.netTrace ++ [ep.reqline] := by
  simp only [executeSingleEndpoint, hcs, hfind]
  rw [updateEndpointInSuite_eq s cs eid _ hcs]
  simp only [netCall, hnet, tick]
  rw [updateEndpointInSuite_eq _ _ eid _ rfl]
  refine ⟨?_, rfl, ?_, rfl⟩
  · refine congrArg some ?_
    show ({ cs with
        endpoints := (cs.endpoints.map (fun e =>
          if e.id == eid then
            applyPatch e
              { error := some none
                isLoading := some true
                status := some .running }
          else e)).map (fun e =>
          if e.id == eid then
            applyPatch e
              { error := some (some (createSafeErrorMessage err))
                isLoading := some false
                executedAt := some (s.time + 1)
                status := some .failed }
          else e)
        updatedAt := s.time + 1 + 1 } : TestSuite) = _
    congr 1
    · rw [List.map_map]
      refine List.map_congr_left ?_
      intro e _
      by_cases he : (e.id == eid) = true <;>
        simp [he, Function.comp, applyPatch]
    · omega
  · show s.time + 1 + 1 + 1 = s.time + 3
    omega

/-- Closed form of `executeSingleEndpoint` when the call succeeds. -/
theorem executeSingleEndpoint_ok_eq (s : EngineState) (cs : TestSuite)
    (ep : EndpointTest) (eid : String) (p : String) (ns : List NetOutcome)
    (hcs : s.currentSuite = some cs)
    (hfind : cs.endpoints.find? (fun e => e.id == eid) = some ep)
    (hnet : s.net = .ok p :: ns) :
    (executeSingleEndpoint s eid).currentSuite =
      some { cs with
        endpoints := cs.endpoints.map (fun e =>
          if e.id == eid then
            { e with
              result := some (sanitizeResponseData p)
              error := none
              isLoading := false
              executedAt := some (s.time + 1)
              status := .completed }
          else e)
        updatedAt := s.time + 2 } ∧
    (executeSingleEndpoint s eid).net = ns ∧
    (executeSingleEndpoint s eid).time = s.time + 3 ∧
    (executeSingleEndpoint s eid).netTrace = s.netTrace ++ [ep.reqline] := by
  simp only [executeSingleEndpoint, hcs, hfind]
  rw [updateEndpointInSuite_eq s cs eid _ hcs]
  simp only [netCall, hnet, tick]
  rw [updateEndpointInSuite_eq _ _ eid _ rfl]
  refine ⟨?_, rfl, ?_, rfl⟩
  · refine congrArg some ?_
    show ({ cs with
        endpoints := (cs.endpoints.map (fun e =>
          if e.id == eid then
            applyPatch e
              { error := some none
                isLoading := some true
                status := some .running }
          else e)).map (fun e =>
          if e.id == eid then
            applyPatch e
              { result := some (some (sanitizeResponseData p))
                isLoading := some false
                executedAt := some (s.time + 1)
                status := some .completed }
          else e)
        updatedAt := s.time + 1 + 1 } : TestSuite) = _
    congr 1
    · rw [List.map_map]
      refine List.map_congr_left ?_
      intro e _
      by_cases he : (e.id == eid) = true <;>
        simp [he, Function.comp, applyPatch]
    · omega
  · show s.time + 1 + 1 + 1 = s.time + 3
    omega

/-! ### Rate limiter map lemmas -/

theorem rlGet_rlSet_self (st : RLState) (k : String) (v : List Int) :
    rlGet (rlSet st k v) k = some v := by
  induction st with
  | nil => simp [rlSet, rlGet]
  | cons kv rest ih =>
    obtain ⟨k2, v2⟩ := kv
    by_cases h : k2 = k
    · simp [rlSet, rlGet, h]
    · simp [rlSet, rlGet, h, ih]

theorem rlGet_rlSet_other (st : RLState) (k k2 : String) (v : List Int)
    (h : k ≠ k2) : rlGet (rlSet st k v) k2 = rlGet st k2 := by
  induction st with
  | nil => simp [rlSet, rlGet, h]
  | cons kv rest ih =>
    obtain ⟨k3, v3⟩ := kv
    by_cases h3 : k3 = k
    · simp [rlSet, rlGet, h3, h]
    · simp [rlSet, rlGet, h3, ih]

/-! ### Concrete fixtures used by the claim theorems -/

def mkEp (i r : String) : EndpointTest :=
  { id := i
    title := "E"
    description := ""
    reqline := r
    result := none
    error := none
    isLoading := false
    createdAt := 0
    executedAt := none
    status := .pending }

def mkSuite (eps : List EndpointTest) : TestSuite :=
  { id := "s1"
    title := "API Test Suite"
    description := ""
    baseUrl := "https://a.com"
    endpoints := eps
    createdAt := 0
    updatedAt := 0
    expiresAt := 14400000 }

def mkState (eps : List EndpointTest) (net : List NetOutcome) (lim : RLState) :
    EngineState :=
  { currentSuite := some (mkSuite eps)
    testSuites := [mkSuite eps]
    storedCurrent := some (mkSuite eps)
    storedSuites := [mkSuite eps]
    isRunningAll := false
    limiter := lim
    time := 0
    idCounter := 0
    net := net
    netTrace := [] }

def c1State : EngineState :=
  mkState [mkEp "e1" "HTTP GET | URL https://a.com/x"] [.ok "pong"]
    [("default:minute", List.replicate 60 0)]

/-- C1 counterexample: at `c1State` the rate limiter would reject the
identifier "default" (the minute tier holds 60 fresh timestamps), yet
`executeSingleEndpoint` issues the network call anyway, completes the
endpoint, and leaves the limiter untouched — refuting the claim that a
rejected `allow` marks the endpoint failed and suppresses the call. -/
theorem c1_counterexample :
    (checkRateLimit c1State.limiter "default" c1State.time).1.allowed = false ∧
    (executeSingleEndpoint c1State "e1").netTrace =
      ["HTTP GET | URL https://a.com/x"] ∧
    (executeSingleEndpoint c1State "e1").limiter = c1State.limiter ∧
    ((executeSingleEndpoint c1State "e1").currentSuite.map (fun cs =>
      cs.endpoints.map (fun e => e.status))) = some [.completed] := by
  decide

/-- C1 (amended): `executeSingleEndpoint` never consults the rate limiter —
whenever the current suite contains the endpoint id it issues exactly one
network call, whatever the limiter state, and leaves the limiter state
unchanged. -/
theorem c1_engine_never_consults_limiter (s : EngineState) (ids : List String)
    (eid : String) (hids : suiteIds s = some ids) (hmem : eid ∈ ids) :
    (executeSingleEndpoint s eid).netTrace.length = s.netTrace.length + 1 ∧
    (executeSingleEndpoint s eid).limiter = s.limiter := by
  obtain ⟨a, _, c⟩ := executeSingleEndpoint_step s eid ids hids hmem
  exact ⟨a, c⟩

/-- Witness for the amended C1 at the concrete state `c1State`. -/
theorem c1_witness :
    suiteIds c1State = some ["e1"] ∧ "e1" ∈ ["e1"] ∧
    ((executeSingleEndpoint c1State "e1").netTrace.length =
        c1State.netTrace.length + 1 ∧
      (executeSingleEndpoint c1State "e1").limiter = c1State.limiter) :=
  ⟨by decide, by decide,
    c1_engine_never_consults_limiter c1State ["e1"] "e1" (by decide) (by decide)⟩

def c2Ep : EndpointTest :=
  { mkEp "e1" "HTTP GET | URL https://a.com/x" with
    result := some "old"
    status := .completed
    executedAt := some 5 }

def c2State : EngineState :=
  mkState [c2Ep] [.fail (.obj none (some "boom"))] []

/-- C2 counterexample: `c2Ep` has a stored result from a completed run;
re-executing it against a failing network leaves the endpoint with the stale
result AND the new error message simultaneously — the `running` transition in
the source clears only `error`, never `result`. -/
theorem c2_counterexample :
    ((executeSingleEndpoint c2State "e1").currentSuite.map (fun cs =>
      cs.endpoints.map (fun e => (e.result, e.error, e.status)))) =
      some [(some "old", some "boom", .failed)] := by
  decide

/-- C2 (amended): when `executeOne` re-executes an endpoint and the call
fails, the endpoint ends with its prior `result` untouched alongside the new
error message: the running transition clears `error` but not `result`. -/
theorem c2_running_clears_only_error (s : EngineState) (cs : TestSuite)
    (ep : EndpointTest) (eid : String) (err : JsErrorVal) (ns : List NetOutcome)
    (hcs : s.currentSuite = some cs)
    (hfind : cs.endpoints.find? (fun e => e.id == eid) = some ep)
    (hnet : s.net = .fail err :: ns) :
    ((executeSingleEndpoint s eid).currentSuite.map (fun cs2 =>
      cs2.endpoints.find? (fun e => e.id == eid))) =
      some (some { ep with
        error := some (createSafeErrorMessage err)
        isLoading := false
        executedAt := some (s.time + 1)
        status := .failed }) := by
  obtain ⟨h1, _, _, _⟩ := executeSingleEndpoint_fail_eq s cs ep eid err ns hcs hfind hnet
  rw [h1]
  simp only [Option.map_some']
  refine congrArg some ?_
  show (cs.endpoints.map (fun e =>
      if e.id == eid then
        ({ e with
          error := some (createSafeErrorMessage err)
          isLoading := false
          executedAt := some (s.time + 1)
          status := .failed } : EndpointTest)
      else e)).find? (fun e => e.id == eid) = _
  rw [find?_map_if cs.endpoints eid ep
    (fun e =>
      { e with
        error := some (createSafeErrorMessage err)
        isLoading := false
        executedAt := some (s.time + 1)
        status := .failed })
    (fun e => rfl) hfind]

/-- Witness for the amended C2 at the concrete state `c2State`. -/
theorem c2_witness :
    ((executeSingleEndpoint c2State "e1").currentSuite.map (fun cs2 =>
      cs2.endpoints.find? (fun e => e.id == "e1"))) =
      some (some { c2Ep with
        error := some (createSafeErrorMessage (.obj none (some "boom")))
        isLoading := false
        executedAt := some (c2State.time + 1)
        status := .failed }) :=
  c2_running_clears_only_error c2State (mkSuite [c2Ep]) c2Ep "e1"
    (.obj none (some "boom")) [] rfl (by decide) rfl

def c4State : EngineState :=
  mkState
    [mkEp "e1" "HTTP GET | URL https://a.com/1",
     mkEp "e2" "HTTP GET | URL https://a.com/2"]
    [.ok "r1", .ok "r2"] []

/-- C4 counterexample: a stop request arriving between the first and second
iterations (so `stopAllExecution` runs and clears the flag) does not prevent
the second endpoint's network call: the batch loop never checks the flag. -/
theorem c4_counterexample :
    (executeAllEndpoints (fun k => k == 1) c4State).netTrace =
      ["HTTP GET | URL https://a.com/1", "HTTP GET | URL https://a.com/2"] := by
  decide

/-- Witness for the amended C4 (`executeAll_calls_every_endpoint`) at
`c4State` with a stop request before iteration 1. -/
theorem c4_witness :
    c4State.currentSuite = some (mkSuite
      [mkEp "e1" "HTTP GET | URL https://a.com/1",
       mkEp "e2" "HTTP GET | URL https://a.com/2"]) ∧
    (mkSuite
      [mkEp "e1" "HTTP GET | URL https://a.com/1",
       mkEp "e2" "HTTP GET | URL https://a.com/2"]).endpoints ≠ [] ∧
    (executeAllEndpoints (fun k => k == 1) c4State).netTrace.length =
      c4State.netTrace.length +
        (mkSuite
          [mkEp "e1" "HTTP GET | URL https://a.com/1",
           mkEp "e2" "HTTP GET | URL https://a.com/2"]).endpoints.length :=
  ⟨rfl, by decide,
    executeAll_calls_every_endpoint (fun k => k == 1) c4State _ rfl (by decide)⟩

def c5Limiter : RLState :=
  [("u:minute", List.replicate 60 0), ("u:hour", [])]

/-- C5 counterexample: at `c5Limiter` the minute tier is exhausted, the call
is rejected with retry-after 60 — and yet the hour tier records the call's
timestamp, so the rejected call consumed hour-tier capacity and the limiter
state changed. -/
theorem c5_counterexample :
    (checkRateLimit c5Limiter "u" 0).1 = ⟨false, some 60⟩ ∧
    (checkRateLimit c5Limiter "u" 0).2 ≠ c5Limiter ∧
    rlGet (checkRateLimit c5Limiter "u" 0).2 "u:hour" = some [0] ∧
    rlGet c5Limiter "u:hour" = some [] := by
  decide

/-- C5 (amended): a call rejected by the exhausted minute tier leaves the
minute tier's stored list unchanged but still records its timestamp in the
hour tier whenever the hour tier is below its limit — both tiers' `isAllowed`
run before the rejection checks. -/
theorem c5_minute_rejection_consumes_hour_capacity
    (st : RLState) (id : String) (now : Int) (ms hs : List Int)
    (hm : rlGet st (id ++ ":minute") = some ms)
    (hmfull : 60 ≤ (ms.filter (fun time => now - 60000 < time)).length)
    (hh : rlGet st (id ++ ":hour") = some hs)
    (hhcap : (hs.filter (fun time => now - 3600000 < time)).length < 1000) :
    (checkRateLimit st id now).1 = ⟨false, some 60⟩ ∧
    rlGet (checkRateLimit st id now).2 (id ++ ":minute") = some ms ∧
    rlGet (checkRateLimit st id now).2 (id ++ ":hour") =
      some (hs.filter (fun time => now - 3600000 < time) ++ [now]) := by
  have hne : (id ++ ":minute") ≠ (id ++ ":hour") := by
    intro hEq
    have hlen := congrArg String.length hEq
    rw [String.length_append, String.length_append] at hlen
    have h7 : (":minute" : String).length = 7 := by decide
    have h5 : (":hour" : String).length = 5 := by decide
    rw [h7, h5] at hlen
    omega
  have hminute : isAllowed st (id ++ ":minute") 60 60000 now = (false, st) := by
    simp [isAllowed, hm, hmfull]
  have hhour : isAllowed st (id ++ ":hour") 1000 3600000 now =
      (true, rlSet st (id ++ ":hour")
        (hs.filter (fun time => now - 3600000 < time) ++ [now])) := by
    simp [isAllowed, hh, Nat.not_le.mpr hhcap]
  simp only [checkRateLimit, hminute, hhour]
  refine ⟨rfl, ?_, ?_⟩
  · simp [rlGet_rlSet_other _ _ _ _ (fun hEq => hne hEq.symm), hm]
  · simp [rlGet_rlSet_self]

/-- Witness for the amended C5 at the concrete limiter state `c5Limiter`. -/
theorem c5_witness :
    (checkRateLimit c5Limiter "u" 0).1 = ⟨false, some 60⟩ ∧
    rlGet (checkRateLimit c5Limiter "u" 0).2 ("u" ++ ":minute") =
      some (List.replicate 60 0) ∧
    rlGet (checkRateLimit c5Limiter "u" 0).2 ("u" ++ ":hour") =
      some (List.filter (fun time => (0:Int) - 3600000 < time) [] ++ [0]) :=
  c5_minute_rejection_consumes_hour_capacity c5Limiter "u" 0
    (List.replicate 60 0) [] (by decide) (by decide) (by decide) (by decide)

def c3State : EngineState :=
  { currentSuite := none
    testSuites := []
    storedCurrent := none
    storedSuites := []
    isRunningAll := false
    limiter := []
    time := 0
    idCounter := 0
    net := []
    netTrace := [] }

def c3Draft : EndpointDraft :=
  { title := "T", description := "D", reqline := "HTTP GET | URL https://a.com/x" }

/-- C3 (code bug): attaching an endpoint with a parseable URL directive while
no suite is active does create and persist a fresh suite whose baseOrigin is
the extracted origin — but then the source dereferences the stale null
`currentSuite` snapshot (`currentSuite!.endpoints`) and throws a TypeError,
so the endpoint is never appended: the persisted suite's endpoint list stays
empty, contradicting the claim that the attach succeeds with the endpoint
appended in pending state. -/
theorem c3_first_attach_throws :
    extractBaseUrl "HTTP GET | URL https://a.com/x" = some "https://a.com" ∧
    (addEndpointToSuite c3State c3Draft).thrown =
      some "TypeError: Cannot read properties of null (reading 'endpoints')" ∧
    ((addEndpointToSuite c3State c3Draft).state.currentSuite.map (fun cs =>
      (cs.baseUrl, cs.endpoints))) = some ("https://a.com", []) ∧
    ((addEndpointToSuite c3State c3Draft).state.storedCurrent.map (fun cs =>
      cs.endpoints)) = some [] := by
  decide

/-- C9: a persisted Suite whose `expiresAt` lies strictly in the past at load
time is omitted from the list a fresh load returns, the filtered list is
persisted back, and the expired suite does not reappear on any later load
from the updated storage. -/
theorem c9_expired_suite_swept (suites : List TestSuite) (su : TestSuite)
    (now : Int) (hmem : su ∈ suites) (hexp : su.expiresAt < now) :
    su ∉ (loadSuitesFromStorage (.stored suites) now).1 ∧
    (loadSuitesFromStorage (.stored suites) now).2 =
      .stored (suites.filter (fun suite => now ≤ suite.expiresAt)) ∧
    ∀ now2 : Int,
      su ∉ (loadSuitesFromStorage (loadSuitesFromStorage (.stored suites) now).2
        now2).1 := by
  have hp : ¬ (decide (now ≤ su.expiresAt)) = true := by
    simp
    omega
  have hlt : (suites.filter (fun suite => now ≤ suite.expiresAt)).length <
      suites.length :=
    List.length_filter_lt_length_iff_exists.mpr ⟨su, hmem, hp⟩
  have hwrite : loadSuitesFromStorage (.stored suites) now =
      (suites.filter (fun suite => now ≤ suite.expiresAt),
        .stored (suites.filter (fun suite => now ≤ suite.expiresAt))) := by
    simp only [loadSuitesFromStorage]
    rw [if_pos (Nat.ne_of_lt hlt)]
  refine ⟨?_, ?_, ?_⟩
  · rw [hwrite]
    intro hIn
    exact hp (List.mem_filter.mp hIn).2
  · rw [hwrite]
  · intro now2
    rw [hwrite]
    simp only [loadSuitesFromStorage]
    split <;>
      exact fun hIn => hp (List.mem_filter.mp (List.mem_filter.mp hIn).1).2

/-- Witness for C9: a concrete expired suite is swept and stays gone. -/
theorem c9_witness :
    mkSuite [] ∈ [mkSuite []] ∧ (mkSuite []).expiresAt < 99999999 ∧
    (mkSuite [] ∉ (loadSuitesFromStorage (.stored [mkSuite []]) 99999999).1 ∧
      (loadSuitesFromStorage (.stored [mkSuite []]) 99999999).2 =
        .stored ([mkSuite []].filter (fun suite => (99999999:Int) ≤ suite.expiresAt)) ∧
      ∀ now2 : Int,
        mkSuite [] ∉ (loadSuitesFromStorage
          (loadSuitesFromStorage (.stored [mkSuite []]) 99999999).2 now2).1) :=
  ⟨by decide, by decide,
    c9_expired_suite_swept [mkSuite []] (mkSuite []) 99999999 (by decide) (by decide)⟩

/-- C10: loading persisted suite state is total on corrupt input — an absent
or unparseable payload yields the empty suite list (resp. no current suite),
with the stored payload untouched, and no exception reaches the caller. -/
theorem c10_load_total_on_corrupt (now : Int) :
    loadSuitesFromStorage .absent now = ([], .absent) ∧
    loadSuitesFromStorage .malformed now = ([], .malformed) ∧
    loadCurrentSuiteFromStorage .absent now = (none, .absent) ∧
    loadCurrentSuiteFromStorage .malformed now = (none, .malformed) :=
  ⟨rfl, rfl, rfl, rfl⟩

def c6State : EngineState :=
  mkState
    [mkEp "e1" "HTTP GET | URL https://a.com/1",
     mkEp "e2" "HTTP GET | URL https://a.com/2",
     mkEp "e3" "HTTP GET | URL https://a.com/3"]
    [.ok "r1", .fail (.obj none (some "boom")), .ok "r3"] []

/-- C6: the claim — after `executeAll` on a fresh 3-endpoint suite where call
2 fails and calls 1 and 3 succeed, the final persisted statuses are completed,
failed, completed with monotone `executedAt` — states the evident intent of
the batch path, but the code does not satisfy it.  `updateEndpointInSuite`
and `executeSingleEndpoint` are closures over the render-frozen
`currentSuite` constant and `setCurrentSuite` is passed a direct value, so
every write of the batch is computed from the pre-batch snapshot and the last
write wins.  At `c6State` all three network calls are issued in order, yet
the final suite in both React state and storage records only endpoint 3's
outcome: statuses pending, pending, completed, with no `executedAt` on
endpoints 1 and 2 — not the claimed completed, failed, completed. -/
theorem c6_batch_last_write_wins :
    (executeAllEndpointsRender c6State).netTrace =
      ["HTTP GET | URL https://a.com/1",
       "HTTP GET | URL https://a.com/2",
       "HTTP GET | URL https://a.com/3"] ∧
    ((executeAllEndpointsRender c6State).currentSuite.map (fun cs =>
        cs.endpoints.map (fun e => e.status))) =
      some [.pending, .pending, .completed] ∧
    ((executeAllEndpointsRender c6State).storedCurrent.map (fun cs =>
        cs.endpoints.map (fun e => e.status))) =
      some [.pending, .pending, .completed] ∧
    ((executeAllEndpointsRender c6State).currentSuite.map (fun cs =>
        cs.endpoints.map (fun e => e.executedAt))) =
      some [none, none, some 1008] ∧
    ((executeAllEndpointsRender c6State).currentSuite.map (fun cs =>
        cs.endpoints.map (fun e => e.status))) ≠
      some [.completed, .failed, .completed] := by
  decide

end Reqline
